import Mathlib

/-!
Shallow embedding of the data model and write operations of
`thrivenbookapp/models.py` (Thriven_Book_pp5).

The Django models are embedded as Lean structures; the ORM store is a list
of records per entity; write operations that can fail return `Except`.
Every definition is translated from the source file, keeping the source
names where Lean allows it.
-/

/-- Calendar date, as used by `datetime.date`: a year (as an integer) and a
month and day (as naturals). -/
structure Date where
  year : Int
  month : Nat
  day : Nat
deriving DecidableEq, Repr

/-- Python tuple comparison `(a1, a2) < (b1, b2)` on pairs of naturals, as a
boolean: lexicographic order, exactly as evaluated by CPython. -/
def tupleLt (a b : Nat × Nat) : Bool :=
  a.1 < b.1 || (a.1 == b.1 && a.2 < b.2)

/-- Lexicographic strict order on pairs, as a proposition.  This is the
wording of the specification ("the pair (current month, current day) is
lexicographically less than (birth month, birth day)"); the bridge to the
source's tuple comparison is proved below. -/
def lexLt (a b : Nat × Nat) : Prop :=
  a.1 < b.1 ∨ (a.1 = b.1 ∧ a.2 < b.2)

instance (a b : Nat × Nat) : Decidable (lexLt a b) := by
  unfold lexLt
  infer_instance

/-- The custom `User` model (an Account).  Only the fields the verified
operations read are carried: `date_of_birth` (nullable) for `get_age`, and
the framework-provided `is_authenticated` flag read by `can_user_comment`. -/
structure User where
  id : Nat
  date_of_birth : Option Date
  is_authenticated : Bool
deriving DecidableEq, Repr

/-- Embedding of `User.get_age`: `today.year - self.date_of_birth.year -
((today.month, today.day) < (dob.month, dob.day))`, where the Python boolean
is coerced to 0 or 1; returns `None` when `date_of_birth` is unset.  The
current date is passed explicitly in place of `timezone.now().date()`. -/
def User.get_age (u : User) (today : Date) : Option Int :=
  match u.date_of_birth with
  | some dob =>
      some (today.year - dob.year -
        (if tupleLt (today.month, today.day) (dob.month, dob.day) then 1 else 0))
  | none => none

/-- The `BookPost` model (a Post).  `author` is the foreign key to the
authoring `User`, carried as its id. -/
structure BookPost where
  id : Nat
  author : Nat
  is_active : Bool
  comment_section_closed : Bool
deriving DecidableEq, Repr

/-- Embedding of `BookPost.can_user_comment`:
`self.is_active and not self.comment_section_closed and user.is_authenticated`. -/
def BookPost.can_user_comment (p : BookPost) (u : User) : Bool :=
  p.is_active && !p.comment_section_closed && u.is_authenticated

/-- The `Comment` model: foreign keys `user` (commenter) and `post`, the
comment `text`, the `is_pinned` flag, the `importance_level` and the
creation timestamp (an abstract tick). -/
structure Comment where
  user : Nat
  post : Nat
  text : String
  is_pinned : Bool
  importance_level : Nat
  created_at : Nat
deriving DecidableEq, Repr

/-- Embedding of the field-adjustment step of `Comment.save`:
`if self.is_pinned and not self.post.author == self.user: self.is_pinned =
False`, after which `super().save()` persists the record unconditionally.
The post the comment references is passed explicitly. -/
def Comment.save (c : Comment) (post : BookPost) : Comment :=
  if c.is_pinned && !(post.author == c.user) then
    { c with is_pinned := false }
  else
    c

/-- Embedding of a full `Comment` write against the comment table: the pin
enforcement of `Comment.save` runs, then the record is appended.  The write
never fails. -/
def commentWrite (table : List Comment) (c : Comment) (post : BookPost) :
    List Comment :=
  table ++ [c.save post]

/-- Comparison used by `order_by('-importance_level', 'created_at')`:
descending importance level, then ascending creation time, as a boolean
relation suitable for sorting. -/
def pinnedOrder (a b : Comment) : Bool :=
  b.importance_level < a.importance_level ||
    (a.importance_level == b.importance_level && a.created_at ≤ b.created_at)

/-- Embedding of `BookPost.get_pinned_comments`:
`self.comments.filter(is_pinned=True).order_by('-importance_level',
'created_at')`.  `self.comments` is the set of rows of the comment table
whose `post` foreign key is this post; the ordering is realised by sorting
with `pinnedOrder`. -/
def BookPost.get_pinned_comments (p : BookPost) (table : List Comment) :
    List Comment :=
  (table.filter (fun c => c.post == p.id && c.is_pinned)).mergeSort pinnedOrder

/-- Outcome classification of a failed write, following the spec's error
taxonomy: a validation failure raised before persistence, or a uniqueness
violation raised by the storage constraint. -/
inductive WriteError where
  | validation
  | uniqueConflict
deriving DecidableEq, Repr

/-- The `UserFollow` model: foreign keys `follower` and `followed`, both
`User` ids. -/
structure UserFollow where
  follower : Nat
  followed : Nat
deriving DecidableEq, Repr

/-- Embedding of a `UserFollow` write: `UserFollow.save` raises
`ValueError` when `self.follower == self.followed` before calling
`super().save()`; persistence then enforces
`unique_together = ['follower', 'followed']`, rejecting a row whose
(follower, followed) pair is already stored.  On failure the store is
returned unchanged inside the error (nothing is persisted). -/
def UserFollow.save (store : List UserFollow) (f : UserFollow) :
    Except WriteError (List UserFollow) :=
  if f.follower == f.followed then
    Except.error WriteError.validation
  else if store.any (fun g => g.follower == f.follower && g.followed == f.followed) then
    Except.error WriteError.uniqueConflict
  else
    Except.ok (store ++ [f])

/-- The `SavedPost` model (a Save): foreign keys `user` and `post`. -/
structure SavedPost where
  user : Nat
  post : Nat
deriving DecidableEq, Repr

/-- Embedding of a `SavedPost` write: persistence enforces
`unique_together = ['user', 'post']`. -/
def SavedPost.create (store : List SavedPost) (s : SavedPost) :
    Except WriteError (List SavedPost) :=
  if store.any (fun t => t.user == s.user && t.post == s.post) then
    Except.error WriteError.uniqueConflict
  else
    Except.ok (store ++ [s])

/-- The `PostLike` model (a Like): foreign keys `user` and `post`. -/
structure PostLike where
  user : Nat
  post : Nat
deriving DecidableEq, Repr

/-- Embedding of a `PostLike` write: persistence enforces
`unique_together = ['user', 'post']`. -/
def PostLike.create (store : List PostLike) (l : PostLike) :
    Except WriteError (List PostLike) :=
  if store.any (fun t => t.user == l.user && t.post == l.post) then
    Except.error WriteError.uniqueConflict
  else
    Except.ok (store ++ [l])

/-- The `Notification` model: foreign key `user`, and the nullable foreign
key `related_post` (both with cascade delete). -/
structure Notification where
  user : Nat
  related_post : Option Nat
deriving DecidableEq, Repr

/-- The whole persistent store: one table per entity.  `users` carries the
`User` ids (the primary keys the foreign keys point at). -/
structure Store where
  users : List Nat
  posts : List BookPost
  comments : List Comment
  saves : List SavedPost
  likes : List PostLike
  notifications : List Notification
  follows : List UserFollow
deriving Repr

/-- The primary keys of the post table. -/
def Store.postIds (s : Store) : List Nat :=
  s.posts.map (fun p => p.id)

/-- Referential integrity of the store: every foreign key points at an
existing row.  This mirrors the foreign-key constraints of the schema,
including the nullable `Notification.related_post`. -/
def Store.consistent (s : Store) : Prop :=
  (∀ p ∈ s.posts, p.author ∈ s.users) ∧
  (∀ c ∈ s.comments, c.user ∈ s.users ∧ c.post ∈ s.postIds) ∧
  (∀ t ∈ s.saves, t.user ∈ s.users ∧ t.post ∈ s.postIds) ∧
  (∀ t ∈ s.likes, t.user ∈ s.users ∧ t.post ∈ s.postIds) ∧
  (∀ n ∈ s.notifications, n.user ∈ s.users ∧
    ∀ pid ∈ n.related_post, pid ∈ s.postIds) ∧
  (∀ f ∈ s.follows, f.follower ∈ s.users ∧ f.followed ∈ s.users)

instance (s : Store) : Decidable s.consistent := by
  unfold Store.consistent
  infer_instance

/-- Cascade semantics of deleting a `BookPost`: every model whose foreign
key has `on_delete=models.CASCADE` loses the rows referencing the deleted
post — its `Comment`s, `SavedPost`s, `PostLike`s, and the `Notification`s
whose nullable `related_post` is this post. -/
def Store.deletePost (s : Store) (pid : Nat) : Store :=
  { s with
    posts := s.posts.filter (fun p => p.id != pid)
    comments := s.comments.filter (fun c => c.post != pid)
    saves := s.saves.filter (fun t => t.post != pid)
    likes := s.likes.filter (fun t => t.post != pid)
    notifications := s.notifications.filter (fun n => n.related_post != some pid) }

/-- Cascade semantics of deleting a `User`: the user's posts are deleted
(`BookPost.author` cascades), which in turn cascades to every row
referencing one of those posts; and every row whose user-valued foreign key
is the deleted user is removed (`Comment.user`, `SavedPost.user`,
`PostLike.user`, `Notification.user`, `UserFollow.follower` and
`UserFollow.followed` all cascade). -/
def Store.deleteUser (s : Store) (uid : Nat) : Store :=
  let deadPosts := (s.posts.filter (fun p => p.author == uid)).map (fun p => p.id)
  { users := s.users.filter (fun v => v != uid)
    posts := s.posts.filter (fun p => p.author != uid)
    comments := s.comments.filter
      (fun c => c.user != uid && !(deadPosts.contains c.post))
    saves := s.saves.filter
      (fun t => t.user != uid && !(deadPosts.contains t.post))
    likes := s.likes.filter
      (fun t => t.user != uid && !(deadPosts.contains t.post))
    notifications := s.notifications.filter
      (fun n => n.user != uid &&
        !(match n.related_post with
          | some pid => deadPosts.contains pid
          | none => false))
    follows := s.follows.filter
      (fun f => f.follower != uid && f.followed != uid) }

/-- Concrete store used to exercise the cascade-delete theorem: two users,
one post by user 0, and one dependent row in every remaining table. -/
def storeExample : Store where
  users := [0, 1]
  posts := [⟨5, 0, true, false⟩]
  comments := [⟨1, 5, "what a great idea", false, 2, 0⟩]
  saves := [⟨1, 5⟩]
  likes := [⟨1, 5⟩]
  notifications := [⟨0, some 5⟩]
  follows := [⟨1, 0⟩]

/-- C4: for every Post and every Account, `can_user_comment` returns true
iff the post is active, its comment section is not closed, and the account
is authenticated; under every other combination of the three booleans it
returns false. -/
theorem can_user_comment_iff (p : BookPost) (u : User) :
    p.can_user_comment u = true ↔
      (p.is_active = true ∧ p.comment_section_closed = false ∧
        u.is_authenticated = true) := by
  unfold BookPost.can_user_comment
  cases p.is_active <;> cases p.comment_section_closed <;>
    cases u.is_authenticated <;> simp

/-- C1: a Comment written with the pinned flag set is persisted with
`is_pinned = false` when the writer is not the Post's author, and with
`is_pinned = true` when the writer is the Post's author; in both cases the
write goes through (the table grows by exactly this record). -/
theorem comment_pin_enforcement (table : List Comment) (c : Comment)
    (post : BookPost) (h : c.is_pinned = true) :
    (c.user ≠ post.author → (c.save post).is_pinned = false) ∧
    (c.user = post.author → (c.save post).is_pinned = true) ∧
    commentWrite table c post = table ++ [c.save post] := by
  refine ⟨fun hne => ?_, fun heq => ?_, rfl⟩
  · unfold Comment.save
    simp [h, Ne.symm hne]
  · unfold Comment.save
    simp [h, heq]

/-- C1 witness: concrete instances of both branches of the pin
enforcement. -/
theorem comment_pin_enforcement_witness :
    ((⟨7, 1, "great idea", true, 2, 0⟩ : Comment).save
        ⟨1, 3, true, false⟩).is_pinned = false ∧
    ((⟨3, 1, "great idea", true, 2, 0⟩ : Comment).save
        ⟨1, 3, true, false⟩).is_pinned = true := by
  constructor
  · exact (comment_pin_enforcement [] ⟨7, 1, "great idea", true, 2, 0⟩
      ⟨1, 3, true, false⟩ rfl).1 (by decide)
  · exact (comment_pin_enforcement [] ⟨3, 1, "great idea", true, 2, 0⟩
      ⟨1, 3, true, false⟩ rfl).2.1 rfl

/-- C9: the pin-enforcement step of `Comment.save` changes at most the
`is_pinned` field: text, importance level, commenter and post references
are persisted exactly as supplied. -/
theorem comment_save_frame (c : Comment) (post : BookPost) :
    (c.save post).text = c.text ∧
    (c.save post).importance_level = c.importance_level ∧
    (c.save post).user = c.user ∧
    (c.save post).post = c.post ∧
    (c.save post).created_at = c.created_at := by
  unfold Comment.save
  split <;> simp

/-- C2: a Follow write where follower and followed coincide fails with a
validation error and persists nothing (the error carries no store: the old
store stands); a Follow write where they differ never raises the
validation error. -/
theorem self_follow_rejected (store : List UserFollow) (f : UserFollow) :
    (f.follower = f.followed →
      UserFollow.save store f = Except.error WriteError.validation) ∧
    (f.follower ≠ f.followed →
      UserFollow.save store f ≠ Except.error WriteError.validation) := by
  constructor
  · intro heq
    unfold UserFollow.save
    simp [heq]
  · intro hne
    unfold UserFollow.save
    simp only [beq_iff_eq, if_neg hne]
    split
    · intro hcontra
      exact WriteError.noConfusion (Except.error.inj hcontra)
    · intro hcontra
      exact Except.noConfusion hcontra

/-- C2 witness: the self-follow (0,0) is rejected with the validation
error on the empty store, and the follow (0,1) is not. -/
theorem self_follow_rejected_witness :
    UserFollow.save [] ⟨0, 0⟩ = Except.error WriteError.validation ∧
    UserFollow.save [] ⟨0, 1⟩ ≠ Except.error WriteError.validation := by
  constructor
  · exact (self_follow_rejected [] ⟨0, 0⟩).1 rfl
  · exact (self_follow_rejected [] ⟨0, 1⟩).2 (by decide)

/-- C3 counterexample: the uniqueness constraint is on the ORDERED pair
(follower, followed), not on the unordered pair of accounts.  After the
successful Follow 0 → 1, a second Follow attempt involving the same two
accounts in the reverse direction, 1 → 0, succeeds instead of failing with
a uniqueness conflict as the claim states. -/
theorem follow_unordered_cex :
    UserFollow.save [⟨0, 1⟩] ⟨1, 0⟩ =
      Except.ok [(⟨0, 1⟩ : UserFollow), ⟨1, 0⟩] := by
  rfl

/-- C3 amended: creating a Follow between distinct accounts succeeds
exactly once per ORDERED (follower, followed) pair: a first write of a pair
not yet stored succeeds, the identical same-direction attempt then fails
with a uniqueness conflict, while the reverse-direction pair of the same
two accounts is a distinct pair and (when not itself stored) succeeds. -/
theorem follow_ordered_unique (store : List UserFollow) (f : UserFollow)
    (hne : f.follower ≠ f.followed)
    (habs : store.any
      (fun g => g.follower == f.follower && g.followed == f.followed) = false)
    (hrev : store.any
      (fun g => g.follower == f.followed && g.followed == f.follower) = false) :
    UserFollow.save store f = Except.ok (store ++ [f]) ∧
    UserFollow.save (store ++ [f]) f =
      Except.error WriteError.uniqueConflict ∧
    UserFollow.save (store ++ [f]) ⟨f.followed, f.follower⟩ =
      Except.ok (store ++ [f] ++ [⟨f.followed, f.follower⟩]) := by
  have hne2 : f.followed ≠ f.follower := Ne.symm hne
  refine ⟨?_, ?_, ?_⟩
  · unfold UserFollow.save
    simp [hne, habs]
  · unfold UserFollow.save
    simp [hne, List.any_append]
  · unfold UserFollow.save
    simp [hne2, List.any_append, hrev, Ne.symm hne2]

/-- C3 amended witness: on the empty store, the first Follow 0 → 1
succeeds, the identical second attempt fails with a uniqueness conflict,
and the reverse Follow 1 → 0 then succeeds. -/
theorem follow_ordered_unique_witness :
    UserFollow.save [] ⟨0, 1⟩ = Except.ok [⟨0, 1⟩] ∧
    UserFollow.save [⟨0, 1⟩] ⟨0, 1⟩ =
      Except.error WriteError.uniqueConflict ∧
    UserFollow.save [⟨0, 1⟩] ⟨1, 0⟩ =
      Except.ok [(⟨0, 1⟩ : UserFollow), ⟨1, 0⟩] :=
  follow_ordered_unique [] ⟨0, 1⟩ (by decide) rfl rfl

/-- C7: creating a Save for an (account, post) pair not yet stored
succeeds, and creating it a second time fails with a uniqueness conflict;
and the same holds for Like. -/
theorem save_like_pair_unique (saves : List SavedPost) (likes : List PostLike)
    (s : SavedPost) (l : PostLike)
    (hs : saves.any (fun t => t.user == s.user && t.post == s.post) = false)
    (hl : likes.any (fun t => t.user == l.user && t.post == l.post) = false) :
    SavedPost.create saves s = Except.ok (saves ++ [s]) ∧
    SavedPost.create (saves ++ [s]) s =
      Except.error WriteError.uniqueConflict ∧
    PostLike.create likes l = Except.ok (likes ++ [l]) ∧
    PostLike.create (likes ++ [l]) l =
      Except.error WriteError.uniqueConflict := by
  refine ⟨?_, ?_, ?_, ?_⟩
  · unfold SavedPost.create
    simp [hs]
  · unfold SavedPost.create
    simp [List.any_append]
  · unfold PostLike.create
    simp [hl]
  · unfold PostLike.create
    simp [List.any_append]

/-- C7 witness: Save and Like of the pair (user 2, post 9) on empty tables
succeed once and fail on repetition. -/
theorem save_like_pair_unique_witness :
    SavedPost.create [] ⟨2, 9⟩ = Except.ok [⟨2, 9⟩] ∧
    SavedPost.create [⟨2, 9⟩] ⟨2, 9⟩ =
      Except.error WriteError.uniqueConflict ∧
    PostLike.create [] ⟨2, 9⟩ = Except.ok [⟨2, 9⟩] ∧
    PostLike.create [⟨2, 9⟩] ⟨2, 9⟩ =
      Except.error WriteError.uniqueConflict :=
  save_like_pair_unique [] [] ⟨2, 9⟩ ⟨2, 9⟩ rfl rfl

/-- Bridge between the Python tuple comparison of the source and the
lexicographic order of the specification. -/
theorem tupleLt_iff_lexLt (a b : Nat × Nat) : tupleLt a b = true ↔ lexLt a b := by
  unfold tupleLt lexLt
  simp

/-- C5: for an Account whose date of birth is set, `get_age` returns
(current year − birth year), decremented by 1 exactly when the pair
(current month, current day) is lexicographically less than (birth month,
birth day); for an Account with no date of birth it returns none. -/
theorem get_age_spec (u : User) (dob today : Date) :
    (u.date_of_birth = none → u.get_age today = none) ∧
    (u.date_of_birth = some dob →
      lexLt (today.month, today.day) (dob.month, dob.day) →
        u.get_age today = some (today.year - dob.year - 1)) ∧
    (u.date_of_birth = some dob →
      ¬ lexLt (today.month, today.day) (dob.month, dob.day) →
        u.get_age today = some (today.year - dob.year)) := by
  refine ⟨fun hnone => ?_, fun hdob hlt => ?_, fun hdob hge => ?_⟩
  · unfold User.get_age
    rw [hnone]
  · unfold User.get_age
    rw [hdob]
    dsimp only
    rw [if_pos ((tupleLt_iff_lexLt _ _).mpr hlt)]
  · unfold User.get_age
    rw [hdob]
    dsimp only
    rw [if_neg (fun hc => hge ((tupleLt_iff_lexLt _ _).mp hc))]
    simp

/-- C5 witness: a user born 2000-05-20 is 25 on 2026-05-19 and 26 on
2026-05-21; a user with no date of birth has no age. -/
theorem get_age_spec_witness :
    (⟨1, none, true⟩ : User).get_age ⟨2026, 5, 19⟩ = none ∧
    (⟨1, some ⟨2000, 5, 20⟩, true⟩ : User).get_age ⟨2026, 5, 19⟩ = some 25 ∧
    (⟨1, some ⟨2000, 5, 20⟩, true⟩ : User).get_age ⟨2026, 5, 21⟩ = some 26 := by
  refine ⟨?_, ?_, ?_⟩
  · exact (get_age_spec ⟨1, none, true⟩ ⟨2000, 5, 20⟩ ⟨2026, 5, 19⟩).1 rfl
  · exact (get_age_spec ⟨1, some ⟨2000, 5, 20⟩, true⟩ ⟨2000, 5, 20⟩
      ⟨2026, 5, 19⟩).2.1 rfl (by decide)
  · exact (get_age_spec ⟨1, some ⟨2000, 5, 20⟩, true⟩ ⟨2000, 5, 20⟩
      ⟨2026, 5, 21⟩).2.2 rfl (by decide)

/-- Strict order on dates: a date is strictly later than another when the
triple (year, month, day) is lexicographically greater. -/
def dateLt (a b : Date) : Prop :=
  a.year < b.year ∨ (a.year = b.year ∧ lexLt (a.month, a.day) (b.month, b.day))

instance (a b : Date) : Decidable (dateLt a b) := by
  unfold dateLt
  infer_instance

/-- C10: for an Account whose date of birth is strictly later than the
current date, `get_age` returns some negative integer — it neither fails
nor returns none. -/
theorem get_age_future_negative (u : User) (dob today : Date)
    (hdob : u.date_of_birth = some dob) (hfut : dateLt today dob) :
    ∃ a : Int, u.get_age today = some a ∧ a < 0 := by
  unfold User.get_age
  rw [hdob]
  refine ⟨_, rfl, ?_⟩
  rcases hfut with hyr | ⟨hyr, hmd⟩
  · split <;> omega
  · rw [if_pos ((tupleLt_iff_lexLt _ _).mpr hmd)]
    omega

/-- C10 witness: on 2026-10-12, a user born 2026-12-01 has a negative
age. -/
theorem get_age_future_negative_witness :
    ∃ a : Int,
      (⟨1, some ⟨2026, 12, 1⟩, true⟩ : User).get_age ⟨2026, 10, 12⟩ = some a ∧
        a < 0 :=
  get_age_future_negative ⟨1, some ⟨2026, 12, 1⟩, true⟩ ⟨2026, 12, 1⟩
    ⟨2026, 10, 12⟩ rfl (by decide)

/-- Transitivity of the pinned-comment comparison. -/
theorem pinnedOrder_trans (a b c : Comment) (hab : pinnedOrder a b = true)
    (hbc : pinnedOrder b c = true) : pinnedOrder a c = true := by
  unfold pinnedOrder at *
  simp at *
  omega

/-- Totality of the pinned-comment comparison. -/
theorem pinnedOrder_total (a b : Comment) :
    (pinnedOrder a b || pinnedOrder b a) = true := by
  unfold pinnedOrder
  simp
  omega

/-- C6: pinned-comment retrieval returns exactly the post's comments whose
pinned flag is set (as a permutation of the filtered table), arranged so
that every earlier element has strictly greater importance than every later
one, or equal importance and a creation time at most as late — i.e. by
descending importance level and, within equal importance, by ascending
creation time.  In particular, of two pinned equal-importance comments the
earlier-created one comes first. -/
theorem get_pinned_comments_spec (p : BookPost) (table : List Comment) :
    (p.get_pinned_comments table).Perm
      (table.filter (fun c => c.post == p.id && c.is_pinned)) ∧
    (p.get_pinned_comments table).Pairwise
      (fun a b => b.importance_level < a.importance_level ∨
        (a.importance_level = b.importance_level ∧
          a.created_at ≤ b.created_at)) := by
  constructor
  · exact List.mergeSort_perm _ pinnedOrder
  · have h := List.sorted_mergeSort pinnedOrder_trans pinnedOrder_total
      (table.filter (fun c => c.post == p.id && c.is_pinned))
    refine List.Pairwise.imp ?_ h
    intro a b hab
    unfold pinnedOrder at hab
    simp at hab
    omega

/-- Membership in the user table after `deleteUser`. -/
theorem mem_users_deleteUser (s : Store) (uid v : Nat) :
    v ∈ (s.deleteUser uid).users ↔ v ∈ s.users ∧ v ≠ uid := by
  unfold Store.deleteUser
  simp [List.mem_filter]

/-- A post id that references a surviving post after `deleteUser` is still
a stored post id: the referenced post was not among the deleted author's
posts, hence it is kept. -/
theorem mem_postIds_deleteUser (s : Store) (uid pid : Nat)
    (hmem : pid ∈ s.postIds)
    (hnd : pid ∉ (s.posts.filter (fun p => p.author == uid)).map
      (fun p => p.id)) :
    pid ∈ (s.deleteUser uid).postIds := by
  unfold Store.postIds at hmem
  unfold Store.deleteUser Store.postIds
  simp [List.mem_filter] at *
  obtain ⟨p, hp, hpid⟩ := hmem
  refine ⟨p, ⟨hp, ?_⟩, hpid⟩
  intro hau
  exact hnd p hp hau hpid

/-- Membership in the post-id table after `deletePost`. -/
theorem mem_postIds_deletePost (s : Store) (pid q : Nat) :
    q ∈ (s.deletePost pid).postIds ↔ q ∈ s.postIds ∧ q ≠ pid := by
  unfold Store.deletePost Store.postIds
  simp [List.mem_filter]
  constructor
  · rintro ⟨p, ⟨hp, hne⟩, rfl⟩
    exact ⟨⟨p, hp, rfl⟩, hne⟩
  · rintro ⟨⟨p, hp, rfl⟩, hne⟩
    exact ⟨p, ⟨hp, hne⟩, rfl⟩

/-- C8: cascade deletes preserve referential integrity.  Deleting an
Account removes it and every dependent record (its posts and everything
referencing them, its comments, saves, likes, notifications, and follows
in both directions); deleting a Post removes it and every comment, save,
like, and notification referencing it.  Starting from any consistent
store, after either delete no record references a nonexistent Account or
Post. -/
theorem cascade_delete_integrity (s : Store) (uid pid : Nat)
    (h : s.consistent) :
    (uid ∉ (s.deleteUser uid).users ∧ (s.deleteUser uid).consistent) ∧
    (pid ∉ (s.deletePost pid).postIds ∧ (s.deletePost pid).consistent) := by
  obtain ⟨h1, h2, h3, h4, h5, h6⟩ := h
  refine ⟨⟨?_, ?_, ?_, ?_, ?_, ?_, ?_⟩, ?_, ?_, ?_, ?_, ?_, ?_, ?_⟩
  · rw [mem_users_deleteUser]
    simp
  · intro p hp
    unfold Store.deleteUser at hp
    simp only [List.mem_filter, bne_iff_ne, ne_eq] at hp
    rw [mem_users_deleteUser]
    exact ⟨h1 p hp.1, hp.2⟩
  · intro c hc
    unfold Store.deleteUser at hc
    simp only [List.mem_filter, Bool.and_eq_true, bne_iff_ne, ne_eq,
      Bool.not_eq_true'] at hc
    obtain ⟨hcm, hcu, hcp⟩ := hc
    refine ⟨?_, ?_⟩
    · rw [mem_users_deleteUser]
      exact ⟨(h2 c hcm).1, hcu⟩
    · refine mem_postIds_deleteUser s uid c.post (h2 c hcm).2 ?_
      simpa using hcp
  · intro t ht
    unfold Store.deleteUser at ht
    simp only [List.mem_filter, Bool.and_eq_true, bne_iff_ne, ne_eq,
      Bool.not_eq_true'] at ht
    obtain ⟨htm, htu, htp⟩ := ht
    refine ⟨?_, ?_⟩
    · rw [mem_users_deleteUser]
      exact ⟨(h3 t htm).1, htu⟩
    · refine mem_postIds_deleteUser s uid t.post (h3 t htm).2 ?_
      simpa using htp
  · intro t ht
    unfold Store.deleteUser at ht
    simp only [List.mem_filter, Bool.and_eq_true, bne_iff_ne, ne_eq,
      Bool.not_eq_true'] at ht
    obtain ⟨htm, htu, htp⟩ := ht
    refine ⟨?_, ?_⟩
    · rw [mem_users_deleteUser]
      exact ⟨(h4 t htm).1, htu⟩
    · refine mem_postIds_deleteUser s uid t.post (h4 t htm).2 ?_
      simpa using htp
  · intro n hn
    unfold Store.deleteUser at hn
    simp only [List.mem_filter, Bool.and_eq_true, bne_iff_ne, ne_eq,
      Bool.not_eq_true'] at hn
    obtain ⟨hnm, hnu, hnp⟩ := hn
    refine ⟨?_, ?_⟩
    · rw [mem_users_deleteUser]
      exact ⟨(h5 n hnm).1, hnu⟩
    · intro q hq
      refine mem_postIds_deleteUser s uid q ((h5 n hnm).2 q hq) ?_
      cases hrel : n.related_post with
      | none =>
          rw [hrel] at hq
          exact absurd hq (by simp)
      | some q2 =>
          rw [hrel] at hq hnp
          have hq2 : q2 = q := by simpa using hq
          subst hq2
          simpa using hnp
  · intro f hf
    unfold Store.deleteUser at hf
    simp only [List.mem_filter, Bool.and_eq_true, bne_iff_ne, ne_eq] at hf
    obtain ⟨hfm, hfr, hfd⟩ := hf
    rw [mem_users_deleteUser, mem_users_deleteUser]
    exact ⟨⟨(h6 f hfm).1, hfr⟩, ⟨(h6 f hfm).2, hfd⟩⟩
  · rw [mem_postIds_deletePost]
    simp
  · intro p hp
    unfold Store.deletePost at hp
    simp only [List.mem_filter, bne_iff_ne, ne_eq] at hp
    exact h1 p hp.1
  · intro c hc
    unfold Store.deletePost at hc
    simp only [List.mem_filter, bne_iff_ne, ne_eq] at hc
    refine ⟨(h2 c hc.1).1, ?_⟩
    rw [mem_postIds_deletePost]
    exact ⟨(h2 c hc.1).2, hc.2⟩
  · intro t ht
    unfold Store.deletePost at ht
    simp only [List.mem_filter, bne_iff_ne, ne_eq] at ht
    refine ⟨(h3 t ht.1).1, ?_⟩
    rw [mem_postIds_deletePost]
    exact ⟨(h3 t ht.1).2, ht.2⟩
  · intro t ht
    unfold Store.deletePost at ht
    simp only [List.mem_filter, bne_iff_ne, ne_eq] at ht
    refine ⟨(h4 t ht.1).1, ?_⟩
    rw [mem_postIds_deletePost]
    exact ⟨(h4 t ht.1).2, ht.2⟩
  · intro n hn
    unfold Store.deletePost at hn
    simp only [List.mem_filter, bne_iff_ne, ne_eq] at hn
    refine ⟨(h5 n hn.1).1, ?_⟩
    intro q hq
    rw [mem_postIds_deletePost]
    refine ⟨(h5 n hn.1).2 q hq, ?_⟩
    intro hqq
    subst hqq
    exact hn.2 (by simpa using hq)
  · intro f hf
    unfold Store.deletePost at hf
    exact h6 f hf

/-- C8 witness: on the concrete store, deleting user 0 and deleting post 5
each leave a consistent store in which the deleted key is gone. -/
theorem cascade_delete_integrity_witness :
    (0 ∉ (storeExample.deleteUser 0).users ∧
      (storeExample.deleteUser 0).consistent) ∧
    (5 ∉ (storeExample.deletePost 5).postIds ∧
      (storeExample.deletePost 5).consistent) :=
  cascade_delete_integrity storeExample 0 5 (by decide)
